import Mathlib

/-!
Verification development for the Sae task lifecycle manager
(`src/sae/services/task_manager.py` with the entity model of
`src/sae/models/a2a.py`).

The Python code is shallowly embedded: the in-memory store (a Python
`dict`, insertion ordered) becomes an association list, every mutating
coroutine becomes a pure state-passing function, exceptions become
`Except`, and the server-assigned wall-clock timestamps
(`datetime.utcnow()`) become an explicit `now : Nat` argument.  The
opaque `dict[str, Any]` payloads, which no operation of the manager ever
inspects, are represented as string association lists.  Each subscriber
queue (`asyncio.Queue`) is represented by the list of snapshots put into
it, in order; the `subscribe` generator's consumption loop is embedded
by `consumeUntilTerminal` / `streamClosed` below.
-/

namespace Sae

/-- Opaque JSON-like payload (`dict[str, Any]` in the source). -/
abbrev Dict := List (String × String)

/-- `TaskState` enum of `a2a.py`. -/
inductive TaskState
  | submitted
  | working
  | inputRequired
  | completed
  | failed
  | canceled
deriving DecidableEq, Repr

/-- `Literal["user", "agent"]` role of a `Message`. -/
inductive Role
  | user
  | agent
deriving DecidableEq, Repr

/-- Content part: `TextPart | FilePart | DataPart` of `a2a.py`. -/
inductive Part
  | text (text : String)
  | file (file : Dict)
  | data (data : Dict)
deriving DecidableEq, Repr

/-- `Message` model of `a2a.py`. -/
structure Message where
  role : Role
  parts : List Part
  metadata : Dict := []
deriving DecidableEq, Repr

/-- `TaskStatus` model of `a2a.py`. -/
structure TaskStatus where
  state : TaskState
  message : Option Message := none
  timestamp : Nat
deriving DecidableEq, Repr

/-- `Artifact` model of `a2a.py`. -/
structure Artifact where
  name : String
  description : Option String := none
  parts : List Part
  index : Nat := 0
  metadata : Dict := []
deriving DecidableEq, Repr

/-- `Task` model of `a2a.py`. -/
structure Task where
  id : String
  status : TaskStatus
  artifacts : List Artifact := []
  history : List Message := []
  metadata : Dict := []
deriving DecidableEq, Repr

/-- `TaskResult` model of `a2a.py`: the snapshot type sent to subscribers. -/
structure TaskResult where
  id : String
  status : TaskStatus
  artifacts : List Artifact := []
  metadata : Dict := []
deriving DecidableEq, Repr

/-- The two domain errors of the task manager:
`TaskNotFoundError` and `InvalidStateTransitionError`. -/
inductive TMError
  | taskNotFound (task_id : String)
  | invalidStateTransition (fromState toState : TaskState)
deriving DecidableEq, Repr

/-- A subscriber queue: the snapshots put into one `asyncio.Queue`, in order. -/
abbrev Queue := List TaskResult

/-- State of a `TaskManager` instance: `_tasks` and `_subscribers`.
Python dicts preserve insertion order, hence association lists. -/
structure TaskManager where
  tasks : List (String × Task) := []
  subscribers : List (String × List Queue) := []
deriving DecidableEq, Repr

/-- Lookup in an insertion-ordered association list (`d[k]` / `k in d`). -/
def alistGet {α : Type} : List (String × α) → String → Option α
  | [], _ => none
  | (k', v) :: rest, k => if k' = k then some v else alistGet rest k

/-- Assignment `d[k] = v` on an insertion-ordered association list:
an existing key keeps its position, a new key is appended at the end. -/
def alistSet {α : Type} : List (String × α) → String → α → List (String × α)
  | [], k, v => [(k, v)]
  | (k', v') :: rest, k, v =>
    if k' = k then (k, v) :: rest else (k', v') :: alistSet rest k v

/-- `VALID_TRANSITIONS` table of `task_manager.py`. -/
def VALID_TRANSITIONS : TaskState → List TaskState
  | .submitted => [.working, .canceled, .failed]
  | .working => [.completed, .failed, .canceled, .inputRequired]
  | .inputRequired => [.working, .canceled, .failed]
  | .completed => []
  | .failed => []
  | .canceled => []

/-- The terminal-state set `{COMPLETED, FAILED, CANCELED}` used by `subscribe`. -/
def terminalStates : List TaskState := [.completed, .failed, .canceled]

/-- `TaskManager._task_to_result`. -/
def taskToResult (task : Task) : TaskResult :=
  { id := task.id
    status := task.status
    artifacts := task.artifacts
    metadata := task.metadata }

/-- `task_id in self._tasks` / `self._tasks[task_id]` read access. -/
def findTask (m : TaskManager) (task_id : String) : Option Task :=
  alistGet m.tasks task_id

/-- `TaskManager._notify_subscribers`: put the current snapshot of
`task_id` into every registered queue for it.  The source reads
`self._tasks[task_id]`, which its callers guarantee to be present. -/
def notifySubscribers (m : TaskManager) (task_id : String) : TaskManager :=
  match alistGet m.subscribers task_id with
  | none => m
  | some queues =>
    match alistGet m.tasks task_id with
    | none => m
    | some task =>
      let result := taskToResult task
      { m with
        subscribers :=
          alistSet m.subscribers task_id (queues.map (fun q => q ++ [result])) }

/-- `TaskManager.create_task`.  `genId` stands for the `uuid4()` value
used when no `task_id` is supplied; `now` for `datetime.utcnow()`. -/
def create_task (m : TaskManager) (message : Message)
    (task_id : Option String) (metadata : Option Dict)
    (genId : String) (now : Nat) : Task × TaskManager :=
  let tid := task_id.getD genId
  match alistGet m.tasks tid with
  | some existing_task =>
    let updated := { existing_task with history := existing_task.history ++ [message] }
    (updated, { m with tasks := alistSet m.tasks tid updated })
  | none =>
    let task : Task :=
      { id := tid
        status := { state := .submitted, message := none, timestamp := now }
        artifacts := []
        history := [message]
        metadata := metadata.getD [] }
    (task,
      { m with
        tasks := alistSet m.tasks tid task
        subscribers := alistSet m.subscribers tid [] })

/-- `TaskManager.get_task`. -/
def get_task (m : TaskManager) (task_id : String) : Except TMError Task :=
  match findTask m task_id with
  | none => .error (.taskNotFound task_id)
  | some task => .ok task

/-- `TaskManager.update_status`: validate the transition against
`VALID_TRANSITIONS`, replace the status, append the optional message to
the history, then notify subscribers.  The validation happens before any
mutation, so the error branches leave the state untouched. -/
def update_status (m : TaskManager) (task_id : String) (state : TaskState)
    (message : Option Message) (now : Nat) :
    Except TMError (Task × TaskManager) :=
  match findTask m task_id with
  | none => .error (.taskNotFound task_id)
  | some task =>
    let current_state := task.status.state
    if state ∈ VALID_TRANSITIONS current_state then
      let new_history :=
        match message with
        | some msg => task.history ++ [msg]
        | none => task.history
      let task' :=
        { task with
          status := { state := state, message := message, timestamp := now }
          history := new_history }
      let m' := notifySubscribers { m with tasks := alistSet m.tasks task_id task' } task_id
      .ok (task', m')
    else
      .error (.invalidStateTransition current_state state)

/-- `TaskManager.add_artifact`: overwrite the supplied artifact's index
with the current artifact count, append, then notify subscribers. -/
def add_artifact (m : TaskManager) (task_id : String) (artifact : Artifact) :
    Except TMError (Task × TaskManager) :=
  match findTask m task_id with
  | none => .error (.taskNotFound task_id)
  | some task =>
    let artifact' := { artifact with index := task.artifacts.length }
    let task' := { task with artifacts := task.artifacts ++ [artifact'] }
    let m' := notifySubscribers { m with tasks := alistSet m.tasks task_id task' } task_id
    .ok (task', m')

/-- The fixed agent message produced by `cancel_task`. -/
def cancelMessage : Message :=
  { role := .agent, parts := [.text "Task was canceled by request."], metadata := [] }

/-- The agent message produced by `fail_task`, embedding the reason. -/
def failMessage (error_message : String) : Message :=
  { role := .agent
    parts := [.text ("Task failed: " ++ error_message)]
    metadata := [] }

/-- `TaskManager.cancel_task`. -/
def cancel_task (m : TaskManager) (task_id : String) (now : Nat) :
    Except TMError (Task × TaskManager) :=
  update_status m task_id .canceled (some cancelMessage) now

/-- `TaskManager.fail_task`. -/
def fail_task (m : TaskManager) (task_id : String) (error_message : String)
    (now : Nat) : Except TMError (Task × TaskManager) :=
  update_status m task_id .failed (some (failMessage error_message)) now

/-- `TaskManager.complete_task`. -/
def complete_task (m : TaskManager) (task_id : String)
    (message : Option Message) (now : Nat) :
    Except TMError (Task × TaskManager) :=
  update_status m task_id .completed message now

/-- Registration half of `TaskManager.subscribe` (lines 271-282): check
existence, register a fresh empty queue, and yield the bootstrap
snapshot of the task as of registration. -/
def subscribe (m : TaskManager) (task_id : String) :
    Except TMError (TaskResult × TaskManager) :=
  match findTask m task_id with
  | none => .error (.taskNotFound task_id)
  | some task =>
    let queues := (alistGet m.subscribers task_id).getD []
    let m' := { m with subscribers := alistSet m.subscribers task_id (queues ++ [[]]) }
    .ok (taskToResult task, m')

/-- Consumption loop of the `subscribe` generator (lines 284-294): take
queued snapshots in order, stopping after the first whose state is
terminal.  When the queue holds no terminal snapshot every element is
consumed and the subscriber stays blocked on `queue.get()`. -/
def consumeUntilTerminal : List TaskResult → List TaskResult
  | [] => []
  | r :: rs =>
    if r.status.state ∈ terminalStates then [r] else r :: consumeUntilTerminal rs

/-- Whether the `subscribe` generator's loop exits (the `break` of line
294) after consuming the given queue contents: it does exactly when some
queued snapshot is terminal.  The bootstrap snapshot is yielded before
the loop and never checked. -/
def streamClosed : List TaskResult → Bool
  | [] => false
  | r :: rs => if r.status.state ∈ terminalStates then true else streamClosed rs

/-- The full sequence of snapshots a subscriber consumes: the bootstrap
snapshot followed by the queued broadcast snapshots up to and including
the first terminal one. -/
def subscriberStream (bootstrap : TaskResult) (pending : List TaskResult) :
    List TaskResult :=
  bootstrap :: consumeUntilTerminal pending

/-- `TaskManager.list_tasks`. -/
def list_tasks (m : TaskManager) (state : Option TaskState) (limit : Nat) :
    List Task :=
  let tasks := m.tasks.map Prod.snd
  let tasks :=
    match state with
    | some s => tasks.filter (fun (t : Task) => decide (t.status.state = s))
    | none => tasks
  tasks.take limit

/-- One public operation of the lifecycle manager, with its explicit
timestamp/uuid inputs.  Used to quantify over arbitrary call sequences. -/
inductive Op
  | create (message : Message) (task_id : Option String) (metadata : Option Dict)
      (genId : String) (now : Nat)
  | updateStatus (task_id : String) (state : TaskState) (message : Option Message)
      (now : Nat)
  | addArtifact (task_id : String) (artifact : Artifact)
  | cancel (task_id : String) (now : Nat)
  | fail (task_id : String) (error_message : String) (now : Nat)
  | complete (task_id : String) (message : Option Message) (now : Nat)
  | getTask (task_id : String)
  | subscribeTo (task_id : String)

/-- Apply one operation to the manager state.  An operation that raises
leaves the state exactly as it was (all validation in the source happens
before any mutation). -/
def applyOp (m : TaskManager) : Op → TaskManager
  | .create message task_id metadata genId now =>
    (create_task m message task_id metadata genId now).2
  | .updateStatus task_id state message now =>
    match update_status m task_id state message now with
    | .ok (_, m') => m'
    | .error _ => m
  | .addArtifact task_id artifact =>
    match add_artifact m task_id artifact with
    | .ok (_, m') => m'
    | .error _ => m
  | .cancel task_id now =>
    match cancel_task m task_id now with
    | .ok (_, m') => m'
    | .error _ => m
  | .fail task_id error_message now =>
    match fail_task m task_id error_message now with
    | .ok (_, m') => m'
    | .error _ => m
  | .complete task_id message now =>
    match complete_task m task_id message now with
    | .ok (_, m') => m'
    | .error _ => m
  | .getTask _ => m
  | .subscribeTo task_id =>
    match subscribe m task_id with
    | .ok (_, m') => m'
    | .error _ => m

/-- Run a sequence of operations from a manager state. -/
def runOps (m : TaskManager) (ops : List Op) : TaskManager :=
  ops.foldl applyOp m

/-- First projection of an operation result, ignoring the state. -/
def okFst {α β : Type} : Except TMError (α × β) → Option α
  | .ok p => some p.1
  | .error _ => none

/-- Second projection of an operation result, ignoring the value. -/
def okSnd {α β : Type} : Except TMError (α × β) → Option β
  | .ok p => some p.2
  | .error _ => none

/-- A freshly constructed `TaskManager()` with empty stores. -/
def initialManager : TaskManager := { tasks := [], subscribers := [] }

/-- The artifact-index invariant: `artifacts[i].index == i` for every
position, i.e. the indices read `0, 1, ..., len - 1` in order. -/
def artifactsIndexed (t : Task) : Prop :=
  t.artifacts.map Artifact.index = List.range t.artifacts.length

/-- The artifact-index invariant for every task in the store. -/
def tasksIndexed (m : TaskManager) : Prop :=
  ∀ id t, findTask m id = some t → artifactsIndexed t

/-- Concrete user message used by the evaluation fixtures below. -/
def wMsg : Message := { role := .user, parts := [.text "hello"], metadata := [] }

/-- A second concrete user message. -/
def wMsg2 : Message := { role := .user, parts := [.text "again"], metadata := [] }

/-- A freshly submitted concrete task. -/
def wTask : Task :=
  { id := "t1"
    status := { state := .submitted, message := none, timestamp := 0 }
    artifacts := []
    history := [wMsg]
    metadata := [] }

/-- A manager holding the single submitted task `"t1"`. -/
def wM : TaskManager := { tasks := [("t1", wTask)], subscribers := [("t1", [])] }

/-- A concrete completed task. -/
def wTaskDone : Task :=
  { id := "t2"
    status := { state := .completed, message := none, timestamp := 3 }
    artifacts := []
    history := [wMsg]
    metadata := [] }

/-- A manager holding the single completed task `"t2"`. -/
def wMDone : TaskManager :=
  { tasks := [("t2", wTaskDone)], subscribers := [("t2", [])] }

/-- A concrete artifact deliberately carrying a bogus `index` of 7. -/
def wArt : Artifact :=
  { name := "a", description := none, parts := [.text "x"], index := 7, metadata := [] }

/-- Create a task and add two artifacts to it. -/
def wOpsC4 : List Op :=
  [.create wMsg (some "t1") none "g" 0,
   .addArtifact "t1" wArt,
   .addArtifact "t1" wArt]

/-- The task produced by running `wOpsC4`: indices reassigned to 0 and 1. -/
def wTaskC4 : Task :=
  { id := "t1"
    status := { state := .submitted, message := none, timestamp := 0 }
    artifacts := [{ wArt with index := 0 }, { wArt with index := 1 }]
    history := [wMsg]
    metadata := [] }

/-- Manager after `create_task` of `"t1"`, before any subscription. -/
def scM1 : TaskManager := (create_task initialManager wMsg (some "t1") none "g" 0).2

/-- Bootstrap snapshot of the freshly created `"t1"`. -/
def scBoot : TaskResult :=
  { id := "t1"
    status := { state := .submitted, message := none, timestamp := 0 }
    artifacts := []
    metadata := [] }

/-- Scenario: create, subscribe, transition to WORKING then COMPLETED. -/
def scOps : List Op :=
  [.create wMsg (some "t1") none "g" 0,
   .subscribeTo "t1",
   .updateStatus "t1" .working none 1,
   .updateStatus "t1" .completed none 2]

/-- Snapshot broadcast by the WORKING transition of `scOps`. -/
def scResW : TaskResult :=
  { id := "t1"
    status := { state := .working, message := none, timestamp := 1 }
    artifacts := []
    metadata := [] }

/-- Snapshot broadcast by the COMPLETED transition of `scOps`. -/
def scResC : TaskResult :=
  { id := "t1"
    status := { state := .completed, message := none, timestamp := 2 }
    artifacts := []
    metadata := [] }

/-- Manager holding task `"t2"` already driven to COMPLETED. -/
def cxM : TaskManager :=
  runOps initialManager
    [.create wMsg (some "t2") none "g" 0,
     .updateStatus "t2" .working none 1,
     .updateStatus "t2" .completed none 2]

/-- Bootstrap snapshot a late subscriber to `"t2"` receives: already terminal. -/
def cxBoot : TaskResult :=
  { id := "t2"
    status := { state := .completed, message := none, timestamp := 2 }
    artifacts := []
    metadata := [] }

theorem alistGet_set_self {α : Type} (l : List (String × α)) (k : String) (v : α) :
    alistGet (alistSet l k v) k = some v := by
  induction l with
  | nil => simp [alistSet, alistGet]
  | cons p rest ih =>
    obtain ⟨k', v'⟩ := p
    by_cases h : k' = k
    · simp [alistSet, h, alistGet]
    · simp [alistSet, h, alistGet, ih]

theorem alistGet_set_ne {α : Type} (l : List (String × α)) (k k' : String) (v : α)
    (h : k ≠ k') : alistGet (alistSet l k v) k' = alistGet l k' := by
  induction l with
  | nil => simp [alistSet, alistGet, h]
  | cons p rest ih =>
    obtain ⟨k'', v''⟩ := p
    by_cases h2 : k'' = k
    · subst h2; simp [alistSet, alistGet, h]
    · simp [alistSet, h2, alistGet, ih]

theorem alistSet_of_get_none {α : Type} (l : List (String × α)) (k : String) (v : α)
    (h : alistGet l k = none) : alistSet l k v = l ++ [(k, v)] := by
  induction l with
  | nil => simp [alistSet]
  | cons p rest ih =>
    obtain ⟨k', v'⟩ := p
    by_cases h2 : k' = k
    · simp [alistGet, h2] at h
    · simp [alistGet, h2] at h
      simp [alistSet, h2, ih h]

theorem alistGet_none_not_mem {α : Type} (l : List (String × α)) (k : String)
    (h : alistGet l k = none) : k ∉ l.map Prod.fst := by
  induction l with
  | nil => simp
  | cons p rest ih =>
    obtain ⟨k', v'⟩ := p
    by_cases h2 : k' = k
    · simp [alistGet, h2] at h
    · simp [alistGet, h2] at h
      simp [h2, ih h]
      exact fun hk => h2 hk.symm

theorem alistSet_keys_of_get_some {α : Type} (l : List (String × α)) (k : String)
    (v v' : α) (h : alistGet l k = some v') :
    (alistSet l k v).map Prod.fst = l.map Prod.fst := by
  induction l with
  | nil => simp [alistGet] at h
  | cons p rest ih =>
    obtain ⟨k', v'' ⟩ := p
    by_cases h2 : k' = k
    · simp [alistSet, h2]
    · simp [alistGet, h2] at h
      simp [alistSet, h2, ih h]

theorem notifySubscribers_tasks (m : TaskManager) (task_id : String) :
    (notifySubscribers m task_id).tasks = m.tasks := by
  unfold notifySubscribers
  cases alistGet m.subscribers task_id with
  | none => rfl
  | some queues =>
    cases alistGet m.tasks task_id with
    | none => rfl
    | some task => rfl

theorem findTask_notifySubscribers (m : TaskManager) (task_id id : String) :
    findTask (notifySubscribers m task_id) id = findTask m id := by
  unfold findTask
  rw [notifySubscribers_tasks]

theorem terminal_valid_empty (s : TaskState) (h : s ∈ terminalStates) :
    VALID_TRANSITIONS s = [] := by
  cases s <;> simp [terminalStates] at h <;> rfl

theorem applyOp_update_preserves (m : TaskManager) (tid : String) (st : TaskState)
    (msg : Option Message) (now : Nat) (id : String) (t : Task)
    (h : findTask m id = some t) :
    ∃ t', findTask (applyOp m (Op.updateStatus tid st msg now)) id = some t' ∧
      t'.id = t.id ∧ t'.metadata = t.metadata ∧ t'.artifacts = t.artifacts ∧
      (t.status.state ∈ terminalStates → t'.status.state = t.status.state) := by
  cases hfind : findTask m tid with
  | none =>
    refine ⟨t, ?_, rfl, rfl, rfl, fun _ => rfl⟩
    simp [applyOp, update_status, hfind, h]
  | some task =>
    by_cases hv : st ∈ VALID_TRANSITIONS task.status.state
    · by_cases hid : tid = id
      · subst hid
        rw [h] at hfind
        injection hfind with hfind
        subst hfind
        refine ⟨{ t with
            status := { state := st, message := msg, timestamp := now }
            history := match msg with
              | some mm => t.history ++ [mm]
              | none => t.history }, ?_, rfl, rfl, rfl, ?_⟩
        · simp only [applyOp, update_status, h, hv, if_pos]
          rw [findTask_notifySubscribers]
          show alistGet (alistSet m.tasks tid _) tid = _
          rw [alistGet_set_self]
        · intro hterm
          rw [terminal_valid_empty _ hterm] at hv
          cases hv
      · refine ⟨t, ?_, rfl, rfl, rfl, fun _ => rfl⟩
        simp only [applyOp, update_status, hfind, hv, if_pos]
        rw [findTask_notifySubscribers]
        show alistGet (alistSet m.tasks tid _) id = _
        rw [alistGet_set_ne _ _ _ _ hid]
        exact h
    · refine ⟨t, ?_, rfl, rfl, rfl, fun _ => rfl⟩
      simp [applyOp, update_status, hfind, hv, h]

theorem applyOp_create_preserves (m : TaskManager) (message : Message)
    (task_id : Option String) (metadata : Option Dict) (genId : String) (now : Nat)
    (id : String) (t : Task) (h : findTask m id = some t) :
    ∃ t', findTask (applyOp m (Op.create message task_id metadata genId now)) id = some t' ∧
      t'.id = t.id ∧ t'.metadata = t.metadata ∧ t'.artifacts = t.artifacts ∧
      t'.status = t.status := by
  cases hfind : alistGet m.tasks (task_id.getD genId) with
  | some existing =>
    by_cases hid : task_id.getD genId = id
    · subst hid
      rw [show alistGet m.tasks (task_id.getD genId) = findTask m (task_id.getD genId) from rfl,
        h] at hfind
      injection hfind with hfind
      subst hfind
      have halist : alistGet m.tasks (task_id.getD genId) = some t := h
      refine ⟨{ t with history := t.history ++ [message] }, ?_, rfl, rfl, rfl, rfl⟩
      simp only [applyOp, create_task, halist]
      show alistGet (alistSet m.tasks (task_id.getD genId) _) (task_id.getD genId) = _
      rw [alistGet_set_self]
    · refine ⟨t, ?_, rfl, rfl, rfl, rfl⟩
      simp only [applyOp, create_task, hfind]
      show alistGet (alistSet m.tasks (task_id.getD genId) _) id = _
      rw [alistGet_set_ne _ _ _ _ hid]
      exact h
  | none =>
    have hid : task_id.getD genId ≠ id := by
      intro he
      rw [he] at hfind
      rw [show alistGet m.tasks id = findTask m id from rfl, h] at hfind
      cases hfind
    refine ⟨t, ?_, rfl, rfl, rfl, rfl⟩
    simp only [applyOp, create_task, hfind]
    show alistGet (alistSet m.tasks (task_id.getD genId) _) id = _
    rw [alistGet_set_ne _ _ _ _ hid]
    exact h

theorem applyOp_addArtifact_preserves (m : TaskManager) (tid : String) (a : Artifact)
    (id : String) (t : Task) (h : findTask m id = some t) :
    ∃ t', findTask (applyOp m (Op.addArtifact tid a)) id = some t' ∧
      t'.id = t.id ∧ t'.metadata = t.metadata ∧ t'.status = t.status ∧
      (artifactsIndexed t → artifactsIndexed t') := by
  cases hfind : findTask m tid with
  | none =>
    refine ⟨t, ?_, rfl, rfl, rfl, fun ht => ht⟩
    simp [applyOp, add_artifact, hfind, h]
  | some task =>
    by_cases hid : tid = id
    · subst hid
      rw [h] at hfind
      injection hfind with hfind
      subst hfind
      refine ⟨{ t with
          artifacts := t.artifacts ++ [{ a with index := t.artifacts.length }] },
          ?_, rfl, rfl, rfl, ?_⟩
      · simp only [applyOp, add_artifact, h]
        rw [findTask_notifySubscribers]
        show alistGet (alistSet m.tasks tid _) tid = _
        rw [alistGet_set_self]
      · intro ht
        simp only [artifactsIndexed] at ht ⊢
        simp [List.range_succ, ht]
    · refine ⟨t, ?_, rfl, rfl, rfl, fun ht => ht⟩
      simp only [applyOp, add_artifact, hfind]
      rw [findTask_notifySubscribers]
      show alistGet (alistSet m.tasks tid _) id = _
      rw [alistGet_set_ne _ _ _ _ hid]
      exact h

theorem applyOp_subscribeTo_tasks (m : TaskManager) (tid : String) :
    (applyOp m (Op.subscribeTo tid)).tasks = m.tasks := by
  cases hfind : findTask m tid with
  | none => simp [applyOp, subscribe, hfind]
  | some task => simp [applyOp, subscribe, hfind]

theorem applyOp_update_fresh (m : TaskManager) (tid : String) (st : TaskState)
    (msg : Option Message) (now : Nat) (id : String)
    (hnone : findTask m id = none) :
    findTask (applyOp m (Op.updateStatus tid st msg now)) id = none := by
  cases hfind : findTask m tid with
  | none => simp [applyOp, update_status, hfind, hnone]
  | some task =>
    by_cases hv : st ∈ VALID_TRANSITIONS task.status.state
    · have hid : tid ≠ id := by
        intro he
        rw [he, hnone] at hfind
        cases hfind
      simp only [applyOp, update_status, hfind, hv, if_pos]
      rw [findTask_notifySubscribers]
      show alistGet (alistSet m.tasks tid _) id = _
      rw [alistGet_set_ne _ _ _ _ hid]
      exact hnone
    · simp [applyOp, update_status, hfind, hv, hnone]

theorem applyOp_addArtifact_fresh (m : TaskManager) (tid : String) (a : Artifact)
    (id : String) (hnone : findTask m id = none) :
    findTask (applyOp m (Op.addArtifact tid a)) id = none := by
  cases hfind : findTask m tid with
  | none => simp [applyOp, add_artifact, hfind, hnone]
  | some task =>
    have hid : tid ≠ id := by
      intro he
      rw [he, hnone] at hfind
      cases hfind
    simp only [applyOp, add_artifact, hfind]
    rw [findTask_notifySubscribers]
    show alistGet (alistSet m.tasks tid _) id = _
    rw [alistGet_set_ne _ _ _ _ hid]
    exact hnone

theorem applyOp_create_fresh (m : TaskManager) (message : Message)
    (task_id : Option String) (metadata : Option Dict) (genId : String) (now : Nat)
    (id : String) (hnone : findTask m id = none) :
    findTask (applyOp m (Op.create message task_id metadata genId now)) id = none ∨
    ∃ t', findTask (applyOp m (Op.create message task_id metadata genId now)) id = some t' ∧
      t'.artifacts = [] ∧ t'.status.state = .submitted := by
  cases hfind : alistGet m.tasks (task_id.getD genId) with
  | some existing =>
    have hid : task_id.getD genId ≠ id := by
      intro he
      rw [he] at hfind
      rw [show alistGet m.tasks id = findTask m id from rfl, hnone] at hfind
      cases hfind
    left
    simp only [applyOp, create_task, hfind]
    show alistGet (alistSet m.tasks (task_id.getD genId) _) id = _
    rw [alistGet_set_ne _ _ _ _ hid]
    exact hnone
  | none =>
    by_cases hid : task_id.getD genId = id
    · right
      refine ⟨{ id := task_id.getD genId,
                status := { state := .submitted, message := none, timestamp := now },
                artifacts := [],
                history := [message],
                metadata := metadata.getD [] }, ?_, rfl, rfl⟩
      simp only [applyOp, create_task, hfind]
      show alistGet (alistSet m.tasks (task_id.getD genId) _) id = _
      rw [← hid, alistGet_set_self]
    · left
      simp only [applyOp, create_task, hfind]
      show alistGet (alistSet m.tasks (task_id.getD genId) _) id = _
      rw [alistGet_set_ne _ _ _ _ hid]
      exact hnone

theorem applyOp_preserves (m : TaskManager) (op : Op) (id : String) (t : Task)
    (h : findTask m id = some t) :
    ∃ t', findTask (applyOp m op) id = some t' ∧
      t'.id = t.id ∧ t'.metadata = t.metadata ∧
      (artifactsIndexed t → artifactsIndexed t') ∧
      (t.status.state ∈ terminalStates → t'.status.state = t.status.state) := by
  cases op with
  | create message task_id metadata genId now =>
    obtain ⟨t', h', hid, hmeta, hart, hstat⟩ :=
      applyOp_create_preserves m message task_id metadata genId now id t h
    exact ⟨t', h', hid, hmeta,
      fun ht => by simpa [artifactsIndexed, hart] using ht,
      fun _ => by rw [hstat]⟩
  | updateStatus tid st msg now =>
    obtain ⟨t', h', hid, hmeta, hart, hterm⟩ :=
      applyOp_update_preserves m tid st msg now id t h
    exact ⟨t', h', hid, hmeta,
      fun ht => by simpa [artifactsIndexed, hart] using ht, hterm⟩
  | addArtifact tid a =>
    obtain ⟨t', h', hid, hmeta, hstat, hidx⟩ :=
      applyOp_addArtifact_preserves m tid a id t h
    exact ⟨t', h', hid, hmeta, hidx, fun _ => by rw [hstat]⟩
  | cancel tid now =>
    obtain ⟨t', h', hid, hmeta, hart, hterm⟩ :=
      applyOp_update_preserves m tid .canceled (some cancelMessage) now id t h
    exact ⟨t', h', hid, hmeta,
      fun ht => by simpa [artifactsIndexed, hart] using ht, hterm⟩
  | fail tid reason now =>
    obtain ⟨t', h', hid, hmeta, hart, hterm⟩ :=
      applyOp_update_preserves m tid .failed (some (failMessage reason)) now id t h
    exact ⟨t', h', hid, hmeta,
      fun ht => by simpa [artifactsIndexed, hart] using ht, hterm⟩
  | complete tid msg now =>
    obtain ⟨t', h', hid, hmeta, hart, hterm⟩ :=
      applyOp_update_preserves m tid .completed msg now id t h
    exact ⟨t', h', hid, hmeta,
      fun ht => by simpa [artifactsIndexed, hart] using ht, hterm⟩
  | getTask tid =>
    exact ⟨t, h, rfl, rfl, fun ht => ht, fun _ => rfl⟩
  | subscribeTo tid =>
    refine ⟨t, ?_, rfl, rfl, fun ht => ht, fun _ => rfl⟩
    show alistGet (applyOp m (Op.subscribeTo tid)).tasks id = some t
    rw [applyOp_subscribeTo_tasks]
    exact h

theorem runOps_preserves (m : TaskManager) (ops : List Op) (id : String) (t : Task)
    (h : findTask m id = some t) :
    ∃ t', findTask (runOps m ops) id = some t' ∧
      t'.id = t.id ∧ t'.metadata = t.metadata ∧
      (artifactsIndexed t → artifactsIndexed t') ∧
      (t.status.state ∈ terminalStates → t'.status.state = t.status.state) := by
  induction ops generalizing m t with
  | nil => exact ⟨t, h, rfl, rfl, fun ht => ht, fun _ => rfl⟩
  | cons op rest ih =>
    obtain ⟨t1, h1, hid1, hmeta1, hidx1, hterm1⟩ := applyOp_preserves m op id t h
    obtain ⟨t', h', hid', hmeta', hidx', hterm'⟩ := ih (applyOp m op) t1 h1
    refine ⟨t', h', hid'.trans hid1, hmeta'.trans hmeta1,
      fun ht => hidx' (hidx1 ht), ?_⟩
    intro hterm
    have e1 := hterm1 hterm
    have hterm2 : t1.status.state ∈ terminalStates := by rw [e1]; exact hterm
    exact (hterm' hterm2).trans e1

theorem applyOp_fresh (m : TaskManager) (op : Op) (id : String)
    (hnone : findTask m id = none) :
    findTask (applyOp m op) id = none ∨
    ∃ t', findTask (applyOp m op) id = some t' ∧ t'.artifacts = [] ∧
      t'.status.state = .submitted := by
  cases op with
  | create message task_id metadata genId now =>
    exact applyOp_create_fresh m message task_id metadata genId now id hnone
  | updateStatus tid st msg now =>
    exact Or.inl (applyOp_update_fresh m tid st msg now id hnone)
  | addArtifact tid a =>
    exact Or.inl (applyOp_addArtifact_fresh m tid a id hnone)
  | cancel tid now =>
    exact Or.inl (applyOp_update_fresh m tid .canceled (some cancelMessage) now id hnone)
  | fail tid reason now =>
    exact Or.inl
      (applyOp_update_fresh m tid .failed (some (failMessage reason)) now id hnone)
  | complete tid msg now =>
    exact Or.inl (applyOp_update_fresh m tid .completed msg now id hnone)
  | getTask tid => exact Or.inl hnone
  | subscribeTo tid =>
    refine Or.inl ?_
    show alistGet (applyOp m (Op.subscribeTo tid)).tasks id = none
    rw [applyOp_subscribeTo_tasks]
    exact hnone

theorem tasksIndexed_applyOp (m : TaskManager) (op : Op) (hm : tasksIndexed m) :
    tasksIndexed (applyOp m op) := by
  intro id t h
  cases hprev : findTask m id with
  | some t0 =>
    obtain ⟨t', h', _, _, hidx, _⟩ := applyOp_preserves m op id t0 hprev
    rw [h'] at h
    injection h with h
    subst h
    exact hidx (hm id t0 hprev)
  | none =>
    rcases applyOp_fresh m op id hprev with hn | ⟨t', h', hart, _⟩
    · rw [hn] at h
      cases h
    · rw [h'] at h
      injection h with h
      subst h
      simp [artifactsIndexed, hart]

theorem tasksIndexed_runOps (m : TaskManager) (ops : List Op)
    (hm : tasksIndexed m) : tasksIndexed (runOps m ops) := by
  induction ops generalizing m with
  | nil => exact hm
  | cons op rest ih => exact ih _ (tasksIndexed_applyOp m op hm)

theorem tasksIndexed_initial : tasksIndexed initialManager := by
  intro id t h
  exact absurd h (by simp [findTask, initialManager, alistGet])

theorem consumeUntilTerminal_append (pre post : List TaskResult) (r : TaskResult)
    (hpre : ∀ x ∈ pre, x.status.state ∉ terminalStates)
    (hr : r.status.state ∈ terminalStates) :
    consumeUntilTerminal (pre ++ r :: post) = pre ++ [r] ∧
    streamClosed (pre ++ r :: post) = true := by
  induction pre with
  | nil => constructor <;> simp [consumeUntilTerminal, streamClosed, hr]
  | cons x xs ih =>
    have hx : x.status.state ∉ terminalStates := hpre x (by simp)
    have hxs : ∀ y ∈ xs, y.status.state ∉ terminalStates :=
      fun y hy => hpre y (by simp [hy])
    obtain ⟨ih1, ih2⟩ := ih hxs
    constructor
    · simp [consumeUntilTerminal, hx, ih1]
    · simp [streamClosed, hx, ih2]

/-- C1: for every task whose current state admits the target state in the
`VALID_TRANSITIONS` table, `update_status` succeeds and the returned
task's `status.state` equals the target state. -/
theorem update_status_valid_transition (m : TaskManager) (id : String) (t : Task)
    (st : TaskState) (msg : Option Message) (now : Nat)
    (h : findTask m id = some t) (hv : st ∈ VALID_TRANSITIONS t.status.state) :
    ∃ t' m', update_status m id st msg now = .ok (t', m') ∧
      t'.status.state = st := by
  simp only [update_status, h, hv, if_pos]
  exact ⟨_, _, rfl, rfl⟩

/-- Witness for C1 at a concrete submitted task and target WORKING. -/
theorem update_status_valid_transition_witness :
    (findTask wM "t1" = some wTask) ∧
    (TaskState.working ∈ VALID_TRANSITIONS wTask.status.state) ∧
    ∃ t' m', update_status wM "t1" .working none 5 = .ok (t', m') ∧
      t'.status.state = .working :=
  ⟨rfl, by decide,
    update_status_valid_transition wM "t1" wTask .working none 5 rfl (by decide)⟩

/-- C2: for every pair not in the transition table, `update_status`
raises `InvalidStateTransitionError` carrying the (from, to) pair, and
the whole manager state — the task with its status, history, artifacts
and metadata, and every subscriber queue — is exactly as before the
call: no snapshot is broadcast. -/
theorem update_status_invalid_transition (m : TaskManager) (id : String) (t : Task)
    (st : TaskState) (msg : Option Message) (now : Nat)
    (h : findTask m id = some t) (hv : st ∉ VALID_TRANSITIONS t.status.state) :
    update_status m id st msg now =
      .error (.invalidStateTransition t.status.state st) ∧
    applyOp m (.updateStatus id st msg now) = m := by
  constructor
  · simp [update_status, h, hv]
  · simp [applyOp, update_status, h, hv]

/-- Witness for C2 at a concrete submitted task and target INPUT_REQUIRED. -/
theorem update_status_invalid_transition_witness :
    (findTask wM "t1" = some wTask) ∧
    (TaskState.inputRequired ∉ VALID_TRANSITIONS wTask.status.state) ∧
    (update_status wM "t1" .inputRequired none 5 =
      .error (.invalidStateTransition wTask.status.state .inputRequired) ∧
    applyOp wM (.updateStatus "t1" .inputRequired none 5) = wM) :=
  ⟨rfl, by decide,
    update_status_invalid_transition wM "t1" wTask .inputRequired none 5 rfl (by decide)⟩

/-- C9: `cancel_task` is exactly `update_status` to CANCELED with the
fixed standard agent cancellation message, `fail_task` is exactly
`update_status` to FAILED with an agent message embedding the supplied
reason, and `complete_task` is exactly `update_status` to COMPLETED with
the supplied message — the whole `Except` result (returned task, new
manager state with its broadcasts, or error) coincides. -/
theorem cancel_fail_complete_sugar (m : TaskManager) (id reason : String)
    (msg : Option Message) (now : Nat) :
    cancel_task m id now = update_status m id .canceled
      (some { role := .agent,
              parts := [.text "Task was canceled by request."],
              metadata := [] }) now ∧
    fail_task m id reason now = update_status m id .failed
      (some { role := .agent,
              parts := [.text ("Task failed: " ++ reason)],
              metadata := [] }) now ∧
    complete_task m id msg now = update_status m id .completed msg now :=
  ⟨rfl, rfl, rfl⟩

/-- C3: calling `create_task` twice with the same id stores exactly one
task under that id; it holds both messages in call order and keeps the
id, status, artifacts and metadata of the first creation. -/
theorem create_task_same_id_twice (m : TaskManager) (msg1 msg2 : Message)
    (id : String) (meta1 meta2 : Option Dict) (g1 g2 : String) (n1 n2 : Nat)
    (h : findTask m id = none) :
    ∃ t1 m1 t2 m2,
      create_task m msg1 (some id) meta1 g1 n1 = (t1, m1) ∧
      create_task m1 msg2 (some id) meta2 g2 n2 = (t2, m2) ∧
      findTask m2 id = some t2 ∧
      t2.history = [msg1, msg2] ∧
      t2.id = t1.id ∧ t1.id = id ∧
      t2.status = t1.status ∧
      t2.artifacts = t1.artifacts ∧
      t2.metadata = t1.metadata ∧
      (m2.tasks.map Prod.fst).count id = 1 := by
  have h0 : alistGet m.tasks id = none := h
  have e1 : create_task m msg1 (some id) meta1 g1 n1 =
      (⟨id, ⟨.submitted, none, n1⟩, [], [msg1], meta1.getD []⟩,
        { m with
          tasks := alistSet m.tasks id ⟨id, ⟨.submitted, none, n1⟩, [], [msg1], meta1.getD []⟩
          subscribers := alistSet m.subscribers id [] }) := by
    simp [create_task, h0]
  have hget1 : alistGet (alistSet m.tasks id
      (⟨id, ⟨.submitted, none, n1⟩, [], [msg1], meta1.getD []⟩ : Task)) id =
      some ⟨id, ⟨.submitted, none, n1⟩, [], [msg1], meta1.getD []⟩ :=
    alistGet_set_self m.tasks id _
  refine ⟨⟨id, ⟨.submitted, none, n1⟩, [], [msg1], meta1.getD []⟩,
    { m with
      tasks := alistSet m.tasks id ⟨id, ⟨.submitted, none, n1⟩, [], [msg1], meta1.getD []⟩
      subscribers := alistSet m.subscribers id [] },
    ⟨id, ⟨.submitted, none, n1⟩, [], [msg1, msg2], meta1.getD []⟩,
    { m with
      tasks := alistSet
        (alistSet m.tasks id ⟨id, ⟨.submitted, none, n1⟩, [], [msg1], meta1.getD []⟩)
        id ⟨id, ⟨.submitted, none, n1⟩, [], [msg1, msg2], meta1.getD []⟩
      subscribers := alistSet m.subscribers id [] },
    e1, ?_, ?_, rfl, rfl, rfl, rfl, rfl, rfl, ?_⟩
  · simp [create_task, hget1]
  · show alistGet (alistSet _ id _) id = _
    rw [alistGet_set_self]
  · show (List.map Prod.fst (alistSet (alistSet m.tasks id _) id _)).count id = 1
    rw [alistSet_keys_of_get_some _ _ _ _ hget1,
      alistSet_of_get_none _ _ _ h0]
    have hmem := alistGet_none_not_mem _ _ h0
    simp [List.count_append, List.count_eq_zero.mpr hmem]

/-- Witness for C3 from the empty manager with id `"t1"`. -/
theorem create_task_same_id_twice_witness :
    (findTask initialManager "t1" = none) ∧
    ∃ t1 m1 t2 m2,
      create_task initialManager wMsg (some "t1") none "g1" 0 = (t1, m1) ∧
      create_task m1 wMsg2 (some "t1") (some [("k", "v")]) "g2" 7 = (t2, m2) ∧
      findTask m2 "t1" = some t2 ∧
      t2.history = [wMsg, wMsg2] ∧
      t2.id = t1.id ∧ t1.id = "t1" ∧
      t2.status = t1.status ∧
      t2.artifacts = t1.artifacts ∧
      t2.metadata = t1.metadata ∧
      (m2.tasks.map Prod.fst).count "t1" = 1 :=
  ⟨rfl, create_task_same_id_twice initialManager wMsg wMsg2 "t1" none
    (some [("k", "v")]) "g1" "g2" 0 7 rfl⟩

/-- C4: in every manager state reachable by any sequence of operations,
every task's artifact indices read `0 .. len-1` in append order
(`artifacts[i].index == i`), and each `add_artifact` call appends one
artifact whose index is assigned at append time to the previous length,
regardless of the index value the supplied artifact carried. -/
theorem add_artifact_indices (ops : List Op) (id : String) (t : Task)
    (h : findTask (runOps initialManager ops) id = some t) :
    t.artifacts.map Artifact.index = List.range t.artifacts.length ∧
    ∀ (m : TaskManager) (tid : String) (a : Artifact) (t' : Task) (m' : TaskManager),
      add_artifact m tid a = .ok (t', m') →
      ∃ t0, findTask m tid = some t0 ∧
        t' = { t0 with artifacts := t0.artifacts ++ [{ a with index := t0.artifacts.length }] } := by
  constructor
  · exact tasksIndexed_runOps initialManager ops tasksIndexed_initial id t h
  · intro m tid a t' m' hok
    cases hfind : findTask m tid with
    | none => simp [add_artifact, hfind] at hok
    | some t0 =>
      simp only [add_artifact, hfind, Except.ok.injEq, Prod.mk.injEq] at hok
      exact ⟨t0, rfl, hok.1.symm⟩

/-- Witness for C4: two `add_artifact` calls on a fresh task, the
supplied artifact carrying the bogus index 7, produce indices 0 and 1. -/
theorem add_artifact_indices_witness :
    (findTask (runOps initialManager wOpsC4) "t1" = some wTaskC4) ∧
    wTaskC4.artifacts.map Artifact.index = List.range wTaskC4.artifacts.length :=
  ⟨by decide, (add_artifact_indices wOpsC4 "t1" wTaskC4 (by decide)).1⟩

/-- C5: once a task's state is terminal, no sequence of subsequent
operations ever changes its `status.state` again, and every
`update_status` on it raises `InvalidStateTransitionError`. -/
theorem terminal_state_forever (m : TaskManager) (id : String) (t : Task)
    (ops : List Op) (h : findTask m id = some t)
    (hterm : t.status.state ∈ terminalStates) :
    ∃ t', findTask (runOps m ops) id = some t' ∧
      t'.status.state = t.status.state ∧
      ∀ st msg now, update_status (runOps m ops) id st msg now =
        .error (.invalidStateTransition t.status.state st) := by
  obtain ⟨t', h', _, _, _, htermp⟩ := runOps_preserves m ops id t h
  have e := htermp hterm
  refine ⟨t', h', e, ?_⟩
  intro st msg now
  have hv : st ∉ VALID_TRANSITIONS t.status.state := by
    rw [terminal_valid_empty _ hterm]
    simp
  simp [update_status, h', e, hv]

/-- Witness for C5: a completed task stays COMPLETED across a create,
an attempted transition, and an artifact append. -/
theorem terminal_state_forever_witness :
    (findTask wMDone "t2" = some wTaskDone) ∧
    (wTaskDone.status.state ∈ terminalStates) ∧
    ∃ t', findTask (runOps wMDone
        [.create wMsg (some "t2") none "g" 9,
         .updateStatus "t2" .working none 9,
         .addArtifact "t2" wArt]) "t2" = some t' ∧
      t'.status.state = wTaskDone.status.state ∧
      ∀ st msg now, update_status (runOps wMDone
        [.create wMsg (some "t2") none "g" 9,
         .updateStatus "t2" .working none 9,
         .addArtifact "t2" wArt]) "t2" st msg now =
        .error (.invalidStateTransition wTaskDone.status.state st) :=
  ⟨rfl, by decide,
    terminal_state_forever wMDone "t2" wTaskDone
      [.create wMsg (some "t2") none "g" 9,
       .updateStatus "t2" .working none 9,
       .addArtifact "t2" wArt] rfl (by decide)⟩

/-- C6: for every existing task, `subscribe` immediately yields a first
bootstrap snapshot whose id, status, artifacts and metadata equal the
task's values as of registration, independent of any later mutation, and
leaves the task store untouched. -/
theorem subscribe_bootstrap_snapshot (m : TaskManager) (id : String) (t : Task)
    (h : findTask m id = some t) :
    ∃ m', subscribe m id = .ok (taskToResult t, m') ∧ m'.tasks = m.tasks ∧
      (taskToResult t).id = t.id ∧ (taskToResult t).status = t.status ∧
      (taskToResult t).artifacts = t.artifacts ∧
      (taskToResult t).metadata = t.metadata := by
  refine ⟨{ m with
      subscribers := alistSet m.subscribers id
        (((alistGet m.subscribers id).getD []) ++ [[]]) },
    ?_, rfl, rfl, rfl, rfl, rfl⟩
  simp [subscribe, h]

/-- Witness for C6 at a concrete one-task manager. -/
theorem subscribe_bootstrap_snapshot_witness :
    (findTask wM "t1" = some wTask) ∧
    ∃ m', subscribe wM "t1" = .ok (taskToResult wTask, m') ∧
      m'.tasks = wM.tasks ∧
      (taskToResult wTask).id = wTask.id ∧
      (taskToResult wTask).status = wTask.status ∧
      (taskToResult wTask).artifacts = wTask.artifacts ∧
      (taskToResult wTask).metadata = wTask.metadata :=
  ⟨rfl, subscribe_bootstrap_snapshot wM "t1" wTask rfl⟩

/-- C8: on an id with no stored task, `get_task`, `update_status`,
`add_artifact` and `subscribe` each fail with `TaskNotFoundError`
carrying the id, and the manager state is entirely unchanged. -/
theorem operations_task_not_found (m : TaskManager) (id : String)
    (h : findTask m id = none) :
    get_task m id = .error (.taskNotFound id) ∧
    (∀ st msg now, update_status m id st msg now = .error (.taskNotFound id)) ∧
    (∀ a, add_artifact m id a = .error (.taskNotFound id)) ∧
    subscribe m id = .error (.taskNotFound id) ∧
    (∀ st msg now, applyOp m (.updateStatus id st msg now) = m) ∧
    (∀ a, applyOp m (.addArtifact id a) = m) ∧
    applyOp m (.subscribeTo id) = m ∧
    applyOp m (.getTask id) = m := by
  refine ⟨?_, ?_, ?_, ?_, ?_, ?_, ?_, ?_⟩
  · simp [get_task, h]
  · intro st msg now
    simp [update_status, h]
  · intro a
    simp [add_artifact, h]
  · simp [subscribe, h]
  · intro st msg now
    simp [applyOp, update_status, h]
  · intro a
    simp [applyOp, add_artifact, h]
  · simp [applyOp, subscribe, h]
  · rfl

/-- Witness for C8 at the empty manager and id `"nope"`. -/
theorem operations_task_not_found_witness :
    (findTask initialManager "nope" = none) ∧
    (get_task initialManager "nope" = .error (.taskNotFound "nope") ∧
    (∀ st msg now, update_status initialManager "nope" st msg now =
      .error (.taskNotFound "nope")) ∧
    (∀ a, add_artifact initialManager "nope" a = .error (.taskNotFound "nope")) ∧
    subscribe initialManager "nope" = .error (.taskNotFound "nope") ∧
    (∀ st msg now, applyOp initialManager (.updateStatus "nope" st msg now) =
      initialManager) ∧
    (∀ a, applyOp initialManager (.addArtifact "nope" a) = initialManager) ∧
    applyOp initialManager (.subscribeTo "nope") = initialManager ∧
    applyOp initialManager (.getTask "nope") = initialManager) :=
  ⟨rfl, operations_task_not_found initialManager "nope" rfl⟩

/-- C10: after a task exists, no sequence of operations — duplicate
`create_task` on its id included — ever changes its `metadata` or its
`id`; in particular the metadata argument of a duplicate `create_task`
is silently ignored. -/
theorem metadata_and_id_immutable (m : TaskManager) (id : String) (t : Task)
    (ops : List Op) (h : findTask m id = some t) :
    (∃ t', findTask (runOps m ops) id = some t' ∧
      t'.id = t.id ∧ t'.metadata = t.metadata) ∧
    ∀ msg meta2 g now,
      (create_task m msg (some id) meta2 g now).1.metadata = t.metadata ∧
      (create_task m msg (some id) meta2 g now).1.id = t.id := by
  constructor
  · obtain ⟨t', h', hid, hmeta, _, _⟩ := runOps_preserves m ops id t h
    exact ⟨t', h', hid, hmeta⟩
  · intro msg meta2 g now
    have h0 : alistGet m.tasks id = some t := h
    constructor <;> simp [create_task, h0]

/-- Witness for C10: a duplicate create with different metadata and a
status update leave id and metadata as first created. -/
theorem metadata_and_id_immutable_witness :
    (findTask wM "t1" = some wTask) ∧
    ((∃ t', findTask (runOps wM
        [.create wMsg2 (some "t1") (some [("x", "y")]) "g" 4,
         .updateStatus "t1" .working none 5]) "t1" = some t' ∧
      t'.id = wTask.id ∧ t'.metadata = wTask.metadata) ∧
    ∀ msg meta2 g now,
      (create_task wM msg (some "t1") meta2 g now).1.metadata = wTask.metadata ∧
      (create_task wM msg (some "t1") meta2 g now).1.id = wTask.id) :=
  ⟨rfl, metadata_and_id_immutable wM "t1" wTask
    [.create wMsg2 (some "t1") (some [("x", "y")]) "g" 4,
     .updateStatus "t1" .working none 5] rfl⟩

/-- C7 counterexample: subscribing to a task that is already terminal
yields a terminal bootstrap snapshot, but the generator's loop only
exits after a terminal snapshot arrives through the queue; the freshly
registered queue is empty, so the stream is not closed — the claimed
"terminates after the first snapshot whose state is terminal" fails at
this input. -/
theorem subscribe_terminal_bootstrap_not_closed :
    okFst (subscribe cxM "t2") = some cxBoot ∧
    cxBoot.status.state ∈ terminalStates ∧
    (okSnd (subscribe cxM "t2")).map (fun mm => alistGet mm.subscribers "t2") =
      some (some [[]]) ∧
    streamClosed [] = false ∧
    subscriberStream cxBoot [] = [cxBoot] := by
  refine ⟨?_, ?_, ?_, ?_, ?_⟩ <;> decide

/-- C7 amended: the snapshot sequence is the bootstrap snapshot followed
by the queued broadcast snapshots up to and including the first terminal
broadcast, and the stream closes exactly then (a terminal bootstrap by
itself does not close it); in the concrete create → subscribe → WORKING
→ COMPLETED scenario the subscriber receives exactly three snapshots,
SUBMITTED, WORKING, COMPLETED, in that order, and the stream ends. -/
theorem subscribe_stream_ends_after_terminal_broadcast :
    (∀ (pre post : List TaskResult) (r : TaskResult),
      (∀ x ∈ pre, x.status.state ∉ terminalStates) →
      r.status.state ∈ terminalStates →
      consumeUntilTerminal (pre ++ r :: post) = pre ++ [r] ∧
      streamClosed (pre ++ r :: post) = true) ∧
    okFst (subscribe scM1 "t1") = some scBoot ∧
    alistGet (runOps initialManager scOps).subscribers "t1" = some [[scResW, scResC]] ∧
    subscriberStream scBoot [scResW, scResC] = [scBoot, scResW, scResC] ∧
    streamClosed [scResW, scResC] = true ∧
    scBoot.status.state = .submitted ∧ scResW.status.state = .working ∧
    scResC.status.state = .completed := by
  refine ⟨consumeUntilTerminal_append, ?_, ?_, ?_, ?_, ?_, ?_, ?_⟩ <;> decide

/-- Witness for C7's amended theorem: one non-terminal broadcast followed
by a terminal one is consumed whole and closes the stream. -/
theorem subscribe_stream_ends_after_terminal_broadcast_witness :
    (∀ x ∈ [scResW], x.status.state ∉ terminalStates) ∧
    (scResC.status.state ∈ terminalStates) ∧
    (consumeUntilTerminal ([scResW] ++ scResC :: []) = [scResW] ++ [scResC] ∧
      streamClosed ([scResW] ++ scResC :: []) = true) :=
  ⟨by decide, by decide,
    subscribe_stream_ends_after_terminal_broadcast.1 [scResW] [] scResC
      (by decide) (by decide)⟩

end Sae
